import Mathlib

/-!
Shallow embedding of the workboard server's code-review reconciliation engine
and its surrounding orchestration (`src/server/api/api.go`), together with
theorems checking the specification's claims about it.

Conventions of the embedding:
* Go `int64` timestamps become `Int` (Unix seconds; `0` means "unknown/never").
* Go nil-able pointers become `Option`.
* `githubv4.DateTime` values are represented by their Unix second value; the
  Go `time.Time` zero value is represented by `0` (only its `IsZero` test is
  ever consulted, in the repository-archived check).
* The GraphQL comment `createdAt` field is non-null in GitHub's schema, so it
  is embedded as a plain `Int`; `updatedAt` stays optional.
* `convertGitHubToWorkboardCodeReview` returns `Option`: `none` models the
  nil-pointer dereference the Go code performs at `issue.UpdatedAt.Unix()`
  when a first-sighting issue carries no `UpdatedAt`.
-/

namespace Workboard

/-- proto enum `GitHubPullRequestStatus`. -/
inductive GitHubPullRequestStatus where
  | UNSPECIFIED
  | OPEN
  | CLOSED
  | MERGED
deriving DecidableEq, Repr

/-- proto enum `CodeReviewStatus`. -/
inductive CodeReviewStatus where
  | UNSPECIFIED
  | NEW
  | MERGED
  | SNOOZED_UNTIL_TIME
  | SNOOZED_UNTIL_UPDATE
  | MUST_REVIEW
  | REVIEWED_DELETE_ON_MERGE
  | CLOSED
  | UPDATED_AFTER_SNOOZE
  | SNOOZED_UNTIL_MENTIONED
  | DELETED
  | ARCHIVED
  | MENTIONED
deriving DecidableEq, Repr

/-- proto message `GitHubRepo`. -/
structure GitHubRepo where
  name : String
  organizationName : String
deriving DecidableEq, Repr

/-- proto message `GitHubPullRequestFields`. -/
structure GitHubPullRequestFields where
  url : String
  title : String
  number : Int
  repo : GitHubRepo
  status : GitHubPullRequestStatus
  statusCheckRollupStatus : String
  isDraft : Bool
  updatedAtTimestamp : Int
  willAutoMerge : Bool
deriving DecidableEq, Repr

/-- proto message `CodeReviewRenderOnlyFields`. -/
structure CodeReviewRenderOnlyFields where
  authorIsSelf : Bool
  authorName : String
  avatarUrl : String
deriving DecidableEq, Repr

/-- proto message `CodeReview` (field defaults are the proto3 zero values). -/
structure CodeReview where
  id : String := ""
  status : CodeReviewStatus := .UNSPECIFIED
  githubFields : Option GitHubPullRequestFields := none
  renderOnlyFields : CodeReviewRenderOnlyFields := ⟨false, "", ""⟩
  lastChangedTimestamp : Int := 0
  lastRefreshedTimestamp : Int := 0
  lastMentionTimestamp : Int := 0
  lastUpdatedTimestamp : Int := 0
  lastVisitedTimestamp : Int := 0
  deleteAfterTimestamp : Int := 0
  snoozeUntilUpdatedAtChangedFrom : Int := 0
  bringBackToReviewIfNotMergedUntilTimestamp : Int := 0
  snoozeUntilTimestamp : Int := 0
deriving DecidableEq, Repr

/-- Embeds `github.Issue.User` (the fields the engine reads). -/
structure IssueUser where
  login : Option String
  name : Option String
deriving DecidableEq, Repr

/-- Embeds `github.Issue` (the fields the engine reads; `state`, `htmlUrl`, `title`
and `number` are dereferenced unconditionally by the Go code, so they are
plain values here). `mergedAt` is `issue.PullRequestLinks.MergedAt`. -/
structure Issue where
  state : String
  htmlUrl : String
  title : String
  number : Int
  mergedAt : Option Int
  updatedAt : Option Int
  user : Option IssueUser
deriving DecidableEq, Repr

/-- Embeds `githubv4.URI`: the rendered URL string plus the parsed absolute-URL
property consulted via `IsAbs`. -/
structure Uri where
  str : String
  isAbs : Bool
deriving DecidableEq, Repr

/-- One node of `pullRequest.comments(last: 20)` in `ExtraInfoGraphQLQuery`. -/
structure CommentNode where
  createdAt : Int
  updatedAt : Option Int
  body : String
deriving DecidableEq, Repr

/-- The `pullRequest.author` part of `ExtraInfoGraphQLQuery`. -/
structure PullRequestAuthor where
  avatarUrl : Option Uri
  login : String
deriving DecidableEq, Repr

/-- The `pullRequest` part of `ExtraInfoGraphQLQuery`. `autoMergeEnabledAt` is
`AutoMergeRequest.EnabledAt`; `commitRollupStates` carries, per node of
`commits(last: 1)`, the `commit.statusCheckRollup.state` string. -/
structure ExtraInfoPullRequest where
  author : PullRequestAuthor
  autoMergeEnabledAt : Option Int
  comments : List CommentNode
  commitRollupStates : List String
  isDraft : Bool
deriving DecidableEq, Repr

/-- The `repository` part of `ExtraInfoGraphQLQuery`. -/
structure ExtraInfoRepository where
  archivedAt : Option Int
  pullRequest : ExtraInfoPullRequest
deriving DecidableEq, Repr

/-- The GraphQL extra-info query result `ExtraInfoGraphQLQuery`. -/
structure ExtraInfoGraphQLQuery where
  repository : ExtraInfoRepository
deriving DecidableEq, Repr

/-- The Go constant `deleteAfterNowSeconds = 86400 * 30`. -/
def deleteAfterNowSeconds : Int := 86400 * 30

/-- Whether `pat` occurs as a contiguous sublist of the given character
list (the empty pattern occurs in every list). -/
def listContainsSublist (pat : List Char) : List Char → Bool
  | [] => pat.isEmpty
  | c :: rest => pat.isPrefixOf (c :: rest) || listContainsSublist pat rest

/-- Go `strings.Contains`: substring containment (every string contains ""). -/
def strContains (s pat : String) : Bool :=
  listContainsSublist pat.data s.data

/-- The derivation of `gitHubPullRequestStatus` at the top of
`convertGitHubToWorkboardCodeReview`: the `switch` on `*issue.State` followed
by the merged override (`MergedAt != nil && *issue.State == "closed"`). -/
def ghPullRequestStatus (issue : Issue) : GitHubPullRequestStatus :=
  let s : GitHubPullRequestStatus :=
    if issue.state = "open" then .OPEN
    else if issue.state = "closed" then .CLOSED
    else .UNSPECIFIED
  if issue.mergedAt.isSome ∧ issue.state = "closed" then .MERGED else s

/-- The check `extraInfo.Repository.ArchivedAt != nil && !extraInfo.Repository.ArchivedAt.IsZero()`. -/
def repoIsArchived (extraInfo : ExtraInfoGraphQLQuery) : Bool :=
  match extraInfo.repository.archivedAt with
  | none => false
  | some t => ¬(t = 0)

/-- The comment's effective time: `UpdatedAt` if edited, else `CreatedAt`. -/
def commentTimeOf (c : CommentNode) : Int :=
  c.updatedAt.getD c.createdAt

/-- The `lastMentionedAt` scan: for each comment of the fetched tail and each
configured trigger, if the body contains the trigger, keep the newest
effective comment time seen so far (strictly-newer comparison via
`commentTime.After`). -/
def computeLastMentionedAt (gitHubMentionTriggers : List String)
    (comments : List CommentNode) : Option Int :=
  comments.foldl (fun acc comment =>
    gitHubMentionTriggers.foldl (fun acc2 trigger =>
      if strContains comment.body trigger then
        match acc2 with
        | none => some (commentTimeOf comment)
        | some m =>
          if commentTimeOf comment > m then some (commentTimeOf comment) else some m
      else acc2) acc) none

/-- The 14-day discard: drop a detected mention when it is older than 14 days
and the PR is not currently open. -/
def discardOldMention (ghStatus : GitHubPullRequestStatus) (now : Int) :
    Option Int → Option Int
  | none => none
  | some t =>
    if now - t > 14 * 24 * 3600 ∧ ghStatus ≠ .OPEN then none else some t

/-- Embeds `conditionalUserAvatarUrl`: empty string when there is no author login,
no absolute avatar URL, an auto-generated block avatar, or an untrusted
domain. -/
def conditionalUserAvatarUrl (extraInfo : ExtraInfoGraphQLQuery) : String :=
  if extraInfo.repository.pullRequest.author.login = "" then ""
  else
    match extraInfo.repository.pullRequest.author.avatarUrl with
    | none => ""
    | some uri =>
      if ¬uri.isAbs then ""
      else
        let avatarUrl := uri.str
        if avatarUrl.startsWith "https://avatars.githubusercontent.com/in/" then ""
        else if ¬(avatarUrl.startsWith "https://avatars.githubusercontent.com/u/") then ""
        else avatarUrl

/-- The `authorName` derivation: issue user login, overridden by the GraphQL
author login when non-empty, overridden by the issue user display name. -/
def authorNameOf (issue : Issue) (extraInfo : ExtraInfoGraphQLQuery) : String :=
  let a0 : String :=
    match issue.user with
    | some u => u.login.getD ""
    | none => ""
  let a1 : String :=
    if extraInfo.repository.pullRequest.author.login ≠ "" then
      extraInfo.repository.pullRequest.author.login
    else a0
  match issue.user with
  | some u => u.name.getD a1
  | none => a1

/-- The check `issue.User != nil && issue.User.Login != nil && *issue.User.Login == gitHubUserSelf`. -/
def authorIsSelfOf (issue : Issue) (gitHubUserSelf : String) : Bool :=
  match issue.user with
  | some u => u.login.elim false (· = gitHubUserSelf)
  | none => false

/-!
The state machine of `convertGitHubToWorkboardCodeReview` (the Go code's
sequential rule block). Each rule is one step function taking and returning
the pair (current `codeReview` value, `updateLastChangedToNow` flag); every
guard reads the *pre-call* `existing` record, exactly as in the source.
-/

/-- Mention rule: `lastMentionedAt != nil && lastMentionedAt.Unix() >
existing.LastMentionTimestamp && !repoIsArchived`. -/
def mentionStep (lastMentionedAt : Option Int) (archived : Bool) (existing : CodeReview)
    (s : CodeReview × Bool) : CodeReview × Bool :=
  match lastMentionedAt with
  | some t =>
    if t > existing.lastMentionTimestamp ∧ archived = false then
      ({ s.1 with
          status := .MENTIONED
          lastMentionTimestamp := t
          deleteAfterTimestamp := 0 }, true)
    else s
  | none => s

/-- Merge rule: transition to `DELETED` (plus retention deadline) for a
`REVIEWED_DELETE_ON_MERGE` record, else to `MERGED`. -/
def mergeStep (ghStatus : GitHubPullRequestStatus) (nowTimestamp : Int)
    (existing : CodeReview) (s : CodeReview × Bool) : CodeReview × Bool :=
  if existing.status ≠ .MERGED ∧ existing.status ≠ .MENTIONED ∧ ghStatus = .MERGED then
    if existing.status = .REVIEWED_DELETE_ON_MERGE then
      ({ s.1 with
          status := .DELETED
          deleteAfterTimestamp := nowTimestamp + deleteAfterNowSeconds }, true)
    else ({ s.1 with status := .MERGED }, true)
  else s

/-- Review-window expiry rule: bring an unmerged `REVIEWED_DELETE_ON_MERGE`
record back to `MUST_REVIEW` once its grace deadline passed. -/
def bringBackStep (nowTimestamp : Int) (existing : CodeReview)
    (s : CodeReview × Bool) : CodeReview × Bool :=
  if existing.status = .REVIEWED_DELETE_ON_MERGE ∧
      existing.bringBackToReviewIfNotMergedUntilTimestamp ≤ nowTimestamp then
    ({ s.1 with
        status := .MUST_REVIEW
        bringBackToReviewIfNotMergedUntilTimestamp := 0 }, true)
  else s

/-- Close rule. -/
def closeStep (ghStatus : GitHubPullRequestStatus) (existing : CodeReview)
    (s : CodeReview × Bool) : CodeReview × Bool :=
  if existing.status ≠ .CLOSED ∧ existing.status ≠ .MENTIONED ∧ ghStatus = .CLOSED then
    ({ s.1 with status := .CLOSED }, true)
  else s

/-- Time-based unsnooze rule. -/
def unsnoozeTimeStep (nowTimestamp : Int) (existing : CodeReview)
    (s : CodeReview × Bool) : CodeReview × Bool :=
  if existing.status = .SNOOZED_UNTIL_TIME ∧
      existing.snoozeUntilTimestamp ≤ nowTimestamp then
    ({ s.1 with status := .MUST_REVIEW, snoozeUntilTimestamp := 0 }, true)
  else s

/-- Update-based unsnooze rule. -/
def unsnoozeUpdateStep (updatedAtTimestamp : Int) (existing : CodeReview)
    (s : CodeReview × Bool) : CodeReview × Bool :=
  if existing.status = .SNOOZED_UNTIL_UPDATE ∧
      updatedAtTimestamp ≠ existing.snoozeUntilUpdatedAtChangedFrom then
    ({ s.1 with status := .UPDATED_AFTER_SNOOZE, snoozeUntilUpdatedAtChangedFrom := 0 }, true)
  else s

/-- Archival rule. -/
def archiveStep (archived : Bool) (existing : CodeReview)
    (s : CodeReview × Bool) : CodeReview × Bool :=
  if archived = true ∧ existing.status ≠ .ARCHIVED then
    ({ s.1 with status := .ARCHIVED }, true)
  else s

/-- The final write-back `if updateLastChangedToNow { codeReview.LastChangedTimestamp = nowTimestamp }`. -/
def finalizeLastChanged (nowTimestamp : Int) (s : CodeReview × Bool) : CodeReview :=
  if s.2 then { s.1 with lastChangedTimestamp := nowTimestamp } else s.1

/-- The full rule block, rules in source order, starting with an unset
`updateLastChangedToNow` flag. -/
def runStateMachine (ghStatus : GitHubPullRequestStatus) (updatedAtTimestamp : Int)
    (archived : Bool) (lastMentionedAt : Option Int) (nowTimestamp : Int)
    (existing : CodeReview) (codeReview : CodeReview) : CodeReview :=
  finalizeLastChanged nowTimestamp
    (archiveStep archived existing
      (unsnoozeUpdateStep updatedAtTimestamp existing
        (unsnoozeTimeStep nowTimestamp existing
          (closeStep ghStatus existing
            (bringBackStep nowTimestamp existing
              (mergeStep ghStatus nowTimestamp existing
                (mentionStep lastMentionedAt archived existing (codeReview, false))))))))

/-- The pre-state-machine merge of `convertGitHubToWorkboardCodeReview`:
copy the existing status (unless `UNSPECIFIED`), take the max of each
monotone timestamp pair, copy the snooze-scoped fields. -/
def mergeMonotoneFields (existing codeReview : CodeReview) : CodeReview :=
  let codeReview :=
    if existing.status ≠ .UNSPECIFIED then { codeReview with status := existing.status }
    else codeReview
  { codeReview with
    lastChangedTimestamp := max existing.lastChangedTimestamp codeReview.lastChangedTimestamp
    lastMentionTimestamp := max existing.lastMentionTimestamp codeReview.lastMentionTimestamp
    lastRefreshedTimestamp := max existing.lastRefreshedTimestamp codeReview.lastRefreshedTimestamp
    lastVisitedTimestamp := max existing.lastVisitedTimestamp codeReview.lastVisitedTimestamp
    snoozeUntilUpdatedAtChangedFrom := existing.snoozeUntilUpdatedAtChangedFrom
    bringBackToReviewIfNotMergedUntilTimestamp := existing.bringBackToReviewIfNotMergedUntilTimestamp
    snoozeUntilTimestamp := existing.snoozeUntilTimestamp }

/-- The existing-record branch of `convertGitHubToWorkboardCodeReview`:
merge the monotone/snooze fields, then either return early for a `DELETED`
record or run the state machine. -/
def mergeWithExisting (ghStatus : GitHubPullRequestStatus) (updatedAtTimestamp : Int)
    (archived : Bool) (lastMentionedAt : Option Int) (nowTimestamp : Int)
    (existing : CodeReview) (codeReview : CodeReview) : CodeReview :=
  let codeReview := mergeMonotoneFields existing codeReview
  if existing.status = .DELETED then codeReview
  else
    runStateMachine ghStatus updatedAtTimestamp archived lastMentionedAt nowTimestamp
      existing codeReview

/-- The `codeReview` struct literal built by
`convertGitHubToWorkboardCodeReview` before the existing-record merge: all
remote fields and render fields freshly computed, `status = NEW`,
`lastRefreshed = now`, `lastUpdated = issue.UpdatedAt` (0 when nil), every
other timestamp and snooze field zero. -/
def buildFreshCodeReview (issue : Issue) (owner repo gitHubUserSelf : String)
    (extraInfo : ExtraInfoGraphQLQuery) (now : Int) : CodeReview :=
  let updatedAtTimestamp : Int := issue.updatedAt.getD 0
  let statusCheckRollupQueryState : String :=
    match extraInfo.repository.pullRequest.commitRollupStates with
    | [] => ""
    | s :: _ => s
  { id := issue.htmlUrl
    status := .NEW
    githubFields := some {
      url := issue.htmlUrl
      title := issue.title
      number := issue.number
      repo := { name := repo, organizationName := owner }
      status := ghPullRequestStatus issue
      statusCheckRollupStatus := statusCheckRollupQueryState
      isDraft := extraInfo.repository.pullRequest.isDraft
      updatedAtTimestamp := updatedAtTimestamp
      willAutoMerge := extraInfo.repository.pullRequest.autoMergeEnabledAt.isSome }
    renderOnlyFields := {
      authorIsSelf := authorIsSelfOf issue gitHubUserSelf
      authorName := authorNameOf issue extraInfo
      avatarUrl := conditionalUserAvatarUrl extraInfo }
    lastChangedTimestamp := 0
    lastRefreshedTimestamp := now
    lastMentionTimestamp := 0
    lastUpdatedTimestamp := updatedAtTimestamp
    lastVisitedTimestamp := 0
    deleteAfterTimestamp := 0
    snoozeUntilUpdatedAtChangedFrom := 0
    bringBackToReviewIfNotMergedUntilTimestamp := 0
    snoozeUntilTimestamp := 0 }

/-- Embeds `convertGitHubToWorkboardCodeReview` from `src/server/api/api.go`.
`existingCodeReview` replaces the `getCodeReviewById` callback (the engine
calls it exactly once, with the id it computed); `now` replaces `time.Now()`.
Returns `none` exactly on the first-sighting nil-`UpdatedAt` dereference. -/
def convertGitHubToWorkboardCodeReview (issue : Issue) (owner repo : String)
    (existingCodeReview : Option CodeReview) (gitHubUserSelf : String)
    (gitHubMentionTriggers : List String) (extraInfo : ExtraInfoGraphQLQuery)
    (now : Int) : Option CodeReview :=
  let gitHubPullRequestStatus := ghPullRequestStatus issue
  let nowTimestamp := now
  let updatedAtTimestamp : Int := issue.updatedAt.getD 0
  let archived := repoIsArchived extraInfo
  let lastMentionedAt : Option Int :=
    discardOldMention gitHubPullRequestStatus now
      (computeLastMentionedAt gitHubMentionTriggers extraInfo.repository.pullRequest.comments)
  let codeReview := buildFreshCodeReview issue owner repo gitHubUserSelf extraInfo now
  match existingCodeReview with
  | none =>
    match issue.updatedAt with
    | none => none
    | some t => some { codeReview with lastChangedTimestamp := t }
  | some existing =>
    some (mergeWithExisting gitHubPullRequestStatus updatedAtTimestamp archived
      lastMentionedAt nowTimestamp existing codeReview)

/-!
## Sync orchestrator and command handlers

The `code_reviews` database key holds one map `id -> CodeReview`; it is
embedded as an association list with map semantics (`storeGet` / `storeSet`
mirror `codeReviews[id]` reads and writes followed by `db.Set`).
-/

/-- The persisted `id -> CodeReview` map. -/
abbrev Store := List (String × CodeReview)

/-- Map lookup, `codeReviews[codeReviewId]` (`getCodeReviewById`). -/
def storeGet (store : Store) (id : String) : Option CodeReview :=
  (List.find? (fun p => p.1 = id) store).map (fun p => p.2)

/-- Map write, `codeReviews[codeReview.Id] = codeReview` (`storeCodeReview`). -/
def storeSet (store : Store) (id : String) (codeReview : CodeReview) : Store :=
  if (store : List _).any (fun p => p.1 = id) then
    store.map (fun p => if p.1 = id then (id, codeReview) else p)
  else store ++ [(id, codeReview)]

/-- Embeds `refreshCodeReview`: load the existing record (`none` result = the
"no such code review" error), fetch and reconcile (`fetch` abstracts the
GitHub issue fetch, the GraphQL extra-info fetch and
`convertGitHubToWorkboardCodeReview`; `none` = any upstream error), then
persist. `none` overall means the error return, which leaves the store
untouched. -/
def refreshCodeReview (fetch : String → Option CodeReview) (store : Store)
    (codeReviewId : String) : Option Store :=
  match storeGet store codeReviewId with
  | none => none
  | some _ =>
    match fetch codeReviewId with
    | none => none
    | some codeReview => some (storeSet store codeReviewId codeReview)

/-- The `for` loop of `RefreshReviews`: refresh each id in order, returning
on the first error (`return nil, errors.Wrap(...)`). The result carries the
final store, the list of ids for which a refresh was attempted, and whether
the loop completed without error. -/
def refreshReviewsLoop (fetch : String → Option CodeReview) (store : Store) :
    List String → Store × List String × Bool
  | [] => (store, [], true)
  | id :: rest =>
    match refreshCodeReview fetch store id with
    | none => (store, [id], false)
    | some store' =>
      let r := refreshReviewsLoop fetch store' rest
      (r.1, id :: r.2.1, r.2.2)

/-- Embeds `RefreshReviews`: reject empty batches and batches of more than
`maxNumReviews = 20` ids before any refresh is attempted; otherwise run the
loop. The `Bool` is `false` exactly when an error response is returned. -/
def RefreshReviews (fetch : String → Option CodeReview) (codeReviewIds : List String)
    (store : Store) : Store × List String × Bool :=
  if codeReviewIds.length ≤ 0 then (store, [], false)
  else if codeReviewIds.length > 20 then (store, [], false)
  else refreshReviewsLoop fetch store codeReviewIds

/-- Embeds `SnoozeUntilTime`: validate the target timestamp (positive and more than
60 seconds ahead of now), load the record (error when absent or when it has
no GitHub fields), set status/`snoozeUntilTimestamp`/`lastChanged`, persist.
`Except.error` models every error return, all of which happen before the
`db.Set` write. -/
def SnoozeUntilTime (store : Store) (codeReviewId : String)
    (snoozeUntilTimestamp : Int) (now : Int) : Except String Store :=
  if snoozeUntilTimestamp ≤ 0 then
    .error "SnoozeUntilTimeCommand.snooze_until_timestamp must be positive"
  else if snoozeUntilTimestamp ≤ now + 60 then
    .error "SnoozeUntilTimeCommand.snooze_until_timestamp must be farther in the future"
  else
    match storeGet store codeReviewId with
    | none => .error "no such code review"
    | some codeReview =>
      match codeReview.githubFields with
      | none => .error "only GitHub PRs supported in SnoozeUntilTime until now"
      | some _ =>
        let codeReview := { codeReview with
          status := .SNOOZED_UNTIL_TIME
          lastChangedTimestamp := now
          snoozeUntilTimestamp := snoozeUntilTimestamp }
        .ok (storeSet store codeReviewId codeReview)

/-!
## Auxiliary definitions used in the statements of the theorems below
-/

/-- Whether the mention rule fires (the guard of `mentionStep`). -/
def mentionFires (lastMentionedAt : Option Int) (archived : Bool)
    (existing : CodeReview) : Bool :=
  match lastMentionedAt with
  | some t => decide (t > existing.lastMentionTimestamp) && !archived
  | none => false

/-- Sequentially refresh the given ids, stopping on the first error; used to
name the store state reached by the successful prefix of a batch. -/
def applyRefreshes (fetch : String → Option CodeReview) (store : Store) :
    List String → Option Store
  | [] => some store
  | id :: rest =>
    (refreshCodeReview fetch store id).bind (fun store' => applyRefreshes fetch store' rest)

/-!
Concrete sample inputs, used by witnesses, counterexamples and
failing-input evaluations.
-/

/-- An open PR issue as returned by the GitHub search. -/
def wIssueOpen : Issue :=
  { state := "open", htmlUrl := "https://github.com/acme/widgets/pull/7",
    title := "Add widget", number := 7, mergedAt := none, updatedAt := some 5000,
    user := some { login := some "alice", name := none } }

/-- The same PR after being merged. -/
def wIssueMerged : Issue := { wIssueOpen with state := "closed", mergedAt := some 4500 }

/-- GraphQL extra info with no comments, repo not archived. -/
def wExtraPlain : ExtraInfoGraphQLQuery :=
  { repository := {
      archivedAt := none,
      pullRequest := {
        author := { avatarUrl := none, login := "alice" },
        autoMergeEnabledAt := none,
        comments := [],
        commitRollupStates := [],
        isDraft := false } } }

/-- GraphQL extra info whose comment tail contains a fresh `@me` mention
(comment time 9000), repo not archived. -/
def wExtraMention : ExtraInfoGraphQLQuery :=
  { repository := {
      archivedAt := none,
      pullRequest := {
        author := { avatarUrl := none, login := "alice" },
        autoMergeEnabledAt := none,
        comments := [{ createdAt := 9000, updatedAt := none, body := "hey @me please look" }],
        commitRollupStates := [],
        isDraft := false } } }

/-- Remote fields of the stored sample record. -/
def wGithubFields : GitHubPullRequestFields :=
  { url := "https://github.com/acme/widgets/pull/7",
    title := "Add widget",
    number := 7,
    repo := { name := "widgets", organizationName := "acme" },
    status := .OPEN,
    statusCheckRollupStatus := "",
    isDraft := false,
    updatedAtTimestamp := 4000,
    willAutoMerge := false }

/-- A stored record in `DELETED` state with a pending `deleteAfter` and no
mention seen yet. -/
def wDeleted : CodeReview :=
  { id := "https://github.com/acme/widgets/pull/7",
    status := .DELETED,
    githubFields := some wGithubFields,
    lastChangedTimestamp := 100,
    lastRefreshedTimestamp := 200,
    deleteAfterTimestamp := 999,
    lastUpdatedTimestamp := 4000 }

/-- A stored record snoozed until time 5 (already expired at `now = 10000`). -/
def wSnoozed : CodeReview :=
  { wDeleted with
    status := .SNOOZED_UNTIL_TIME
    snoozeUntilTimestamp := 5
    deleteAfterTimestamp := 0 }

/-- A `REVIEWED_DELETE_ON_MERGE` record whose bring-back deadline has already
passed (`bringBack = 0`). -/
def wRdomExpired : CodeReview :=
  { wDeleted with
    status := .REVIEWED_DELETE_ON_MERGE
    bringBackToReviewIfNotMergedUntilTimestamp := 0
    deleteAfterTimestamp := 0 }

/-- A `REVIEWED_DELETE_ON_MERGE` record whose bring-back deadline is still in
the future at `now = 10000`. -/
def wRdomFuture : CodeReview :=
  { wRdomExpired with bringBackToReviewIfNotMergedUntilTimestamp := 99999 }

/-- A snoozed record whose stored `lastChanged` (20000) is later than the
reconcile time used in the counterexample (`now = 500`). -/
def wSnoozedLate : CodeReview :=
  { wSnoozed with
    lastChangedTimestamp := 20000
    snoozeUntilTimestamp := 400 }

/-- A second stored record (different workflow state) for comparing render
fields. -/
def wMustReview : CodeReview :=
  { wDeleted with
    status := .MUST_REVIEW
    deleteAfterTimestamp := 0
    lastVisitedTimestamp := 4200 }

/-- A store with three refreshable records. -/
def wStore : Store :=
  [("a", { wMustReview with id := "a" }),
   ("b", { wMustReview with id := "b" }),
   ("c", { wMustReview with id := "c" })]

/-- A fetch function that succeeds on id `"a"` only, returning `wSnoozed`. -/
def wFetchOnlyA : String → Option CodeReview :=
  fun id => if id = "a" then some { wSnoozed with id := "a" } else none

/-!
## Helper lemmas
-/

theorem mentionStep_eq (L : Option Int) (a : Bool) (e : CodeReview) (s : CodeReview × Bool) :
    mentionStep L a e s =
      if mentionFires L a e then
        ({ s.1 with
            status := .MENTIONED
            lastMentionTimestamp := L.getD 0
            deleteAfterTimestamp := 0 }, true)
      else s := by
  rcases L with _ | t <;> simp [mentionStep, mentionFires]

theorem mentionStep_fst_status (L a e s) :
    (mentionStep L a e s).1.status =
      if mentionFires L a e then .MENTIONED else s.1.status := by
  rw [mentionStep_eq]; split <;> rfl

theorem mentionStep_fst_lastMention (L a e s) :
    (mentionStep L a e s).1.lastMentionTimestamp =
      if mentionFires L a e then L.getD 0 else s.1.lastMentionTimestamp := by
  rw [mentionStep_eq]; split <;> rfl

theorem mentionStep_fst_deleteAfter (L a e s) :
    (mentionStep L a e s).1.deleteAfterTimestamp =
      if mentionFires L a e then 0 else s.1.deleteAfterTimestamp := by
  rw [mentionStep_eq]; split <;> rfl

theorem mentionStep_unchanged (L a e s) :
    (mentionStep L a e s).1.id = s.1.id ∧
    (mentionStep L a e s).1.githubFields = s.1.githubFields ∧
    (mentionStep L a e s).1.renderOnlyFields = s.1.renderOnlyFields ∧
    (mentionStep L a e s).1.lastChangedTimestamp = s.1.lastChangedTimestamp ∧
    (mentionStep L a e s).1.lastRefreshedTimestamp = s.1.lastRefreshedTimestamp ∧
    (mentionStep L a e s).1.lastUpdatedTimestamp = s.1.lastUpdatedTimestamp ∧
    (mentionStep L a e s).1.lastVisitedTimestamp = s.1.lastVisitedTimestamp ∧
    (mentionStep L a e s).1.snoozeUntilTimestamp = s.1.snoozeUntilTimestamp ∧
    (mentionStep L a e s).1.snoozeUntilUpdatedAtChangedFrom = s.1.snoozeUntilUpdatedAtChangedFrom ∧
    (mentionStep L a e s).1.bringBackToReviewIfNotMergedUntilTimestamp = s.1.bringBackToReviewIfNotMergedUntilTimestamp := by
  rw [mentionStep_eq]; split <;> simp

theorem mergeStep_fst_status (g now e s) :
    (mergeStep g now e s).1.status =
      if e.status ≠ .MERGED ∧ e.status ≠ .MENTIONED ∧ g = .MERGED then
        (if e.status = .REVIEWED_DELETE_ON_MERGE then .DELETED else .MERGED)
      else s.1.status := by
  unfold mergeStep; split_ifs <;> rfl

theorem mergeStep_fst_deleteAfter (g now e s) :
    (mergeStep g now e s).1.deleteAfterTimestamp =
      if (e.status ≠ .MERGED ∧ e.status ≠ .MENTIONED ∧ g = .MERGED) ∧
          e.status = .REVIEWED_DELETE_ON_MERGE then
        now + deleteAfterNowSeconds
      else s.1.deleteAfterTimestamp := by
  unfold mergeStep; split_ifs <;> first | rfl | tauto

theorem mergeStep_unchanged (g now e s) :
    (mergeStep g now e s).1.id = s.1.id ∧
    (mergeStep g now e s).1.githubFields = s.1.githubFields ∧
    (mergeStep g now e s).1.renderOnlyFields = s.1.renderOnlyFields ∧
    (mergeStep g now e s).1.lastChangedTimestamp = s.1.lastChangedTimestamp ∧
    (mergeStep g now e s).1.lastRefreshedTimestamp = s.1.lastRefreshedTimestamp ∧
    (mergeStep g now e s).1.lastUpdatedTimestamp = s.1.lastUpdatedTimestamp ∧
    (mergeStep g now e s).1.lastVisitedTimestamp = s.1.lastVisitedTimestamp ∧
    (mergeStep g now e s).1.lastMentionTimestamp = s.1.lastMentionTimestamp ∧
    (mergeStep g now e s).1.snoozeUntilTimestamp = s.1.snoozeUntilTimestamp ∧
    (mergeStep g now e s).1.snoozeUntilUpdatedAtChangedFrom = s.1.snoozeUntilUpdatedAtChangedFrom ∧
    (mergeStep g now e s).1.bringBackToReviewIfNotMergedUntilTimestamp = s.1.bringBackToReviewIfNotMergedUntilTimestamp := by
  unfold mergeStep; split_ifs <;> simp

theorem bringBackStep_fst_status (now e s) :
    (bringBackStep now e s).1.status =
      if e.status = .REVIEWED_DELETE_ON_MERGE ∧
          e.bringBackToReviewIfNotMergedUntilTimestamp ≤ now then .MUST_REVIEW
      else s.1.status := by
  unfold bringBackStep; split_ifs <;> rfl

theorem bringBackStep_fst_bringBack (now e s) :
    (bringBackStep now e s).1.bringBackToReviewIfNotMergedUntilTimestamp =
      if e.status = .REVIEWED_DELETE_ON_MERGE ∧
          e.bringBackToReviewIfNotMergedUntilTimestamp ≤ now then 0
      else s.1.bringBackToReviewIfNotMergedUntilTimestamp := by
  unfold bringBackStep; split_ifs <;> rfl

theorem bringBackStep_unchanged (now e s) :
    (bringBackStep now e s).1.id = s.1.id ∧
    (bringBackStep now e s).1.githubFields = s.1.githubFields ∧
    (bringBackStep now e s).1.renderOnlyFields = s.1.renderOnlyFields ∧
    (bringBackStep now e s).1.lastChangedTimestamp = s.1.lastChangedTimestamp ∧
    (bringBackStep now e s).1.lastRefreshedTimestamp = s.1.lastRefreshedTimestamp ∧
    (bringBackStep now e s).1.lastUpdatedTimestamp = s.1.lastUpdatedTimestamp ∧
    (bringBackStep now e s).1.lastVisitedTimestamp = s.1.lastVisitedTimestamp ∧
    (bringBackStep now e s).1.lastMentionTimestamp = s.1.lastMentionTimestamp ∧
    (bringBackStep now e s).1.snoozeUntilTimestamp = s.1.snoozeUntilTimestamp ∧
    (bringBackStep now e s).1.snoozeUntilUpdatedAtChangedFrom = s.1.snoozeUntilUpdatedAtChangedFrom ∧
    (bringBackStep now e s).1.deleteAfterTimestamp = s.1.deleteAfterTimestamp := by
  unfold bringBackStep; split_ifs <;> simp

theorem closeStep_fst_status (g e s) :
    (closeStep g e s).1.status =
      if e.status ≠ .CLOSED ∧ e.status ≠ .MENTIONED ∧ g = .CLOSED then .CLOSED
      else s.1.status := by
  unfold closeStep; split_ifs <;> rfl

theorem closeStep_unchanged (g e s) :
    (closeStep g e s).1.id = s.1.id ∧
    (closeStep g e s).1.githubFields = s.1.githubFields ∧
    (closeStep g e s).1.renderOnlyFields = s.1.renderOnlyFields ∧
    (closeStep g e s).1.lastChangedTimestamp = s.1.lastChangedTimestamp ∧
    (closeStep g e s).1.lastRefreshedTimestamp = s.1.lastRefreshedTimestamp ∧
    (closeStep g e s).1.lastUpdatedTimestamp = s.1.lastUpdatedTimestamp ∧
    (closeStep g e s).1.lastVisitedTimestamp = s.1.lastVisitedTimestamp ∧
    (closeStep g e s).1.lastMentionTimestamp = s.1.lastMentionTimestamp ∧
    (closeStep g e s).1.snoozeUntilTimestamp = s.1.snoozeUntilTimestamp ∧
    (closeStep g e s).1.snoozeUntilUpdatedAtChangedFrom = s.1.snoozeUntilUpdatedAtChangedFrom ∧
    (closeStep g e s).1.bringBackToReviewIfNotMergedUntilTimestamp = s.1.bringBackToReviewIfNotMergedUntilTimestamp ∧
    (closeStep g e s).1.deleteAfterTimestamp = s.1.deleteAfterTimestamp := by
  unfold closeStep; split_ifs <;> simp

theorem unsnoozeTimeStep_fst_status (now e s) :
    (unsnoozeTimeStep now e s).1.status =
      if e.status = .SNOOZED_UNTIL_TIME ∧ e.snoozeUntilTimestamp ≤ now then .MUST_REVIEW
      else s.1.status := by
  unfold unsnoozeTimeStep; split_ifs <;> rfl

theorem unsnoozeTimeStep_fst_snoozeUntil (now e s) :
    (unsnoozeTimeStep now e s).1.snoozeUntilTimestamp =
      if e.status = .SNOOZED_UNTIL_TIME ∧ e.snoozeUntilTimestamp ≤ now then 0
      else s.1.snoozeUntilTimestamp := by
  unfold unsnoozeTimeStep; split_ifs <;> rfl

theorem unsnoozeTimeStep_unchanged (now e s) :
    (unsnoozeTimeStep now e s).1.id = s.1.id ∧
    (unsnoozeTimeStep now e s).1.githubFields = s.1.githubFields ∧
    (unsnoozeTimeStep now e s).1.renderOnlyFields = s.1.renderOnlyFields ∧
    (unsnoozeTimeStep now e s).1.lastChangedTimestamp = s.1.lastChangedTimestamp ∧
    (unsnoozeTimeStep now e s).1.lastRefreshedTimestamp = s.1.lastRefreshedTimestamp ∧
    (unsnoozeTimeStep now e s).1.lastUpdatedTimestamp = s.1.lastUpdatedTimestamp ∧
    (unsnoozeTimeStep now e s).1.lastVisitedTimestamp = s.1.lastVisitedTimestamp ∧
    (unsnoozeTimeStep now e s).1.lastMentionTimestamp = s.1.lastMentionTimestamp ∧
    (unsnoozeTimeStep now e s).1.snoozeUntilUpdatedAtChangedFrom = s.1.snoozeUntilUpdatedAtChangedFrom ∧
    (unsnoozeTimeStep now e s).1.bringBackToReviewIfNotMergedUntilTimestamp = s.1.bringBackToReviewIfNotMergedUntilTimestamp ∧
    (unsnoozeTimeStep now e s).1.deleteAfterTimestamp = s.1.deleteAfterTimestamp := by
  unfold unsnoozeTimeStep; split_ifs <;> simp

theorem unsnoozeUpdateStep_fst_status (u e s) :
    (unsnoozeUpdateStep u e s).1.status =
      if e.status = .SNOOZED_UNTIL_UPDATE ∧ u ≠ e.snoozeUntilUpdatedAtChangedFrom then
        .UPDATED_AFTER_SNOOZE
      else s.1.status := by
  unfold unsnoozeUpdateStep; split_ifs <;> rfl

theorem unsnoozeUpdateStep_fst_snoozeFrom (u e s) :
    (unsnoozeUpdateStep u e s).1.snoozeUntilUpdatedAtChangedFrom =
      if e.status = .SNOOZED_UNTIL_UPDATE ∧ u ≠ e.snoozeUntilUpdatedAtChangedFrom then 0
      else s.1.snoozeUntilUpdatedAtChangedFrom := by
  unfold unsnoozeUpdateStep; split_ifs <;> rfl

theorem unsnoozeUpdateStep_unchanged (u e s) :
    (unsnoozeUpdateStep u e s).1.id = s.1.id ∧
    (unsnoozeUpdateStep u e s).1.githubFields = s.1.githubFields ∧
    (unsnoozeUpdateStep u e s).1.renderOnlyFields = s.1.renderOnlyFields ∧
    (unsnoozeUpdateStep u e s).1.lastChangedTimestamp = s.1.lastChangedTimestamp ∧
    (unsnoozeUpdateStep u e s).1.lastRefreshedTimestamp = s.1.lastRefreshedTimestamp ∧
    (unsnoozeUpdateStep u e s).1.lastUpdatedTimestamp = s.1.lastUpdatedTimestamp ∧
    (unsnoozeUpdateStep u e s).1.lastVisitedTimestamp = s.1.lastVisitedTimestamp ∧
    (unsnoozeUpdateStep u e s).1.lastMentionTimestamp = s.1.lastMentionTimestamp ∧
    (unsnoozeUpdateStep u e s).1.snoozeUntilTimestamp = s.1.snoozeUntilTimestamp ∧
    (unsnoozeUpdateStep u e s).1.bringBackToReviewIfNotMergedUntilTimestamp = s.1.bringBackToReviewIfNotMergedUntilTimestamp ∧
    (unsnoozeUpdateStep u e s).1.deleteAfterTimestamp = s.1.deleteAfterTimestamp := by
  unfold unsnoozeUpdateStep; split_ifs <;> simp

theorem archiveStep_fst_status (a e s) :
    (archiveStep a e s).1.status =
      if a = true ∧ e.status ≠ .ARCHIVED then .ARCHIVED else s.1.status := by
  unfold archiveStep; split_ifs <;> rfl

theorem archiveStep_unchanged (a e s) :
    (archiveStep a e s).1.id = s.1.id ∧
    (archiveStep a e s).1.githubFields = s.1.githubFields ∧
    (archiveStep a e s).1.renderOnlyFields = s.1.renderOnlyFields ∧
    (archiveStep a e s).1.lastChangedTimestamp = s.1.lastChangedTimestamp ∧
    (archiveStep a e s).1.lastRefreshedTimestamp = s.1.lastRefreshedTimestamp ∧
    (archiveStep a e s).1.lastUpdatedTimestamp = s.1.lastUpdatedTimestamp ∧
    (archiveStep a e s).1.lastVisitedTimestamp = s.1.lastVisitedTimestamp ∧
    (archiveStep a e s).1.lastMentionTimestamp = s.1.lastMentionTimestamp ∧
    (archiveStep a e s).1.snoozeUntilTimestamp = s.1.snoozeUntilTimestamp ∧
    (archiveStep a e s).1.snoozeUntilUpdatedAtChangedFrom = s.1.snoozeUntilUpdatedAtChangedFrom ∧
    (archiveStep a e s).1.bringBackToReviewIfNotMergedUntilTimestamp = s.1.bringBackToReviewIfNotMergedUntilTimestamp ∧
    (archiveStep a e s).1.deleteAfterTimestamp = s.1.deleteAfterTimestamp := by
  unfold archiveStep; split_ifs <;> simp

theorem finalizeLastChanged_fields (now s) :
    (finalizeLastChanged now s).id = s.1.id ∧
    (finalizeLastChanged now s).status = s.1.status ∧
    (finalizeLastChanged now s).githubFields = s.1.githubFields ∧
    (finalizeLastChanged now s).renderOnlyFields = s.1.renderOnlyFields ∧
    (finalizeLastChanged now s).lastRefreshedTimestamp = s.1.lastRefreshedTimestamp ∧
    (finalizeLastChanged now s).lastUpdatedTimestamp = s.1.lastUpdatedTimestamp ∧
    (finalizeLastChanged now s).lastVisitedTimestamp = s.1.lastVisitedTimestamp ∧
    (finalizeLastChanged now s).lastMentionTimestamp = s.1.lastMentionTimestamp ∧
    (finalizeLastChanged now s).snoozeUntilTimestamp = s.1.snoozeUntilTimestamp ∧
    (finalizeLastChanged now s).snoozeUntilUpdatedAtChangedFrom = s.1.snoozeUntilUpdatedAtChangedFrom ∧
    (finalizeLastChanged now s).bringBackToReviewIfNotMergedUntilTimestamp = s.1.bringBackToReviewIfNotMergedUntilTimestamp ∧
    (finalizeLastChanged now s).deleteAfterTimestamp = s.1.deleteAfterTimestamp := by
  unfold finalizeLastChanged; split_ifs <;> simp

theorem finalizeLastChanged_lastChanged (now s) :
    (finalizeLastChanged now s).lastChangedTimestamp =
      if s.2 = true then now else s.1.lastChangedTimestamp := by
  unfold finalizeLastChanged; split_ifs <;> simp_all

theorem mergeMonotoneFields_status (e cr) :
    (mergeMonotoneFields e cr).status =
      if e.status ≠ .UNSPECIFIED then e.status else cr.status := by
  unfold mergeMonotoneFields; split_ifs <;> rfl

theorem mergeMonotoneFields_fields (e cr) :
    (mergeMonotoneFields e cr).id = cr.id ∧
    (mergeMonotoneFields e cr).githubFields = cr.githubFields ∧
    (mergeMonotoneFields e cr).renderOnlyFields = cr.renderOnlyFields ∧
    (mergeMonotoneFields e cr).lastChangedTimestamp = max e.lastChangedTimestamp cr.lastChangedTimestamp ∧
    (mergeMonotoneFields e cr).lastMentionTimestamp = max e.lastMentionTimestamp cr.lastMentionTimestamp ∧
    (mergeMonotoneFields e cr).lastRefreshedTimestamp = max e.lastRefreshedTimestamp cr.lastRefreshedTimestamp ∧
    (mergeMonotoneFields e cr).lastVisitedTimestamp = max e.lastVisitedTimestamp cr.lastVisitedTimestamp ∧
    (mergeMonotoneFields e cr).lastUpdatedTimestamp = cr.lastUpdatedTimestamp ∧
    (mergeMonotoneFields e cr).snoozeUntilUpdatedAtChangedFrom = e.snoozeUntilUpdatedAtChangedFrom ∧
    (mergeMonotoneFields e cr).bringBackToReviewIfNotMergedUntilTimestamp = e.bringBackToReviewIfNotMergedUntilTimestamp ∧
    (mergeMonotoneFields e cr).snoozeUntilTimestamp = e.snoozeUntilTimestamp ∧
    (mergeMonotoneFields e cr).deleteAfterTimestamp = cr.deleteAfterTimestamp := by
  unfold mergeMonotoneFields; split_ifs <;> simp

theorem runStateMachine_status (g u a L now e cr) :
    (runStateMachine g u a L now e cr).status =
      if a = true ∧ e.status ≠ .ARCHIVED then .ARCHIVED
      else if e.status = .SNOOZED_UNTIL_UPDATE ∧ u ≠ e.snoozeUntilUpdatedAtChangedFrom then
        .UPDATED_AFTER_SNOOZE
      else if e.status = .SNOOZED_UNTIL_TIME ∧ e.snoozeUntilTimestamp ≤ now then .MUST_REVIEW
      else if e.status ≠ .CLOSED ∧ e.status ≠ .MENTIONED ∧ g = .CLOSED then .CLOSED
      else if e.status = .REVIEWED_DELETE_ON_MERGE ∧
          e.bringBackToReviewIfNotMergedUntilTimestamp ≤ now then .MUST_REVIEW
      else if e.status ≠ .MERGED ∧ e.status ≠ .MENTIONED ∧ g = .MERGED then
        (if e.status = .REVIEWED_DELETE_ON_MERGE then .DELETED else .MERGED)
      else if mentionFires L a e then .MENTIONED
      else cr.status := by
  simp only [runStateMachine, finalizeLastChanged_fields, archiveStep_fst_status,
    unsnoozeUpdateStep_fst_status, unsnoozeTimeStep_fst_status, closeStep_fst_status,
    bringBackStep_fst_status, mergeStep_fst_status, mentionStep_fst_status]

theorem runStateMachine_snoozeUntil (g u a L now e cr) :
    (runStateMachine g u a L now e cr).snoozeUntilTimestamp =
      if e.status = .SNOOZED_UNTIL_TIME ∧ e.snoozeUntilTimestamp ≤ now then 0
      else cr.snoozeUntilTimestamp := by
  simp only [runStateMachine, finalizeLastChanged_fields, archiveStep_unchanged,
    unsnoozeUpdateStep_unchanged, unsnoozeTimeStep_fst_snoozeUntil, closeStep_unchanged,
    bringBackStep_unchanged, mergeStep_unchanged, mentionStep_unchanged]

theorem runStateMachine_snoozeFrom (g u a L now e cr) :
    (runStateMachine g u a L now e cr).snoozeUntilUpdatedAtChangedFrom =
      if e.status = .SNOOZED_UNTIL_UPDATE ∧ u ≠ e.snoozeUntilUpdatedAtChangedFrom then 0
      else cr.snoozeUntilUpdatedAtChangedFrom := by
  simp only [runStateMachine, finalizeLastChanged_fields, archiveStep_unchanged,
    unsnoozeUpdateStep_fst_snoozeFrom, unsnoozeTimeStep_unchanged, closeStep_unchanged,
    bringBackStep_unchanged, mergeStep_unchanged, mentionStep_unchanged]

theorem runStateMachine_bringBack (g u a L now e cr) :
    (runStateMachine g u a L now e cr).bringBackToReviewIfNotMergedUntilTimestamp =
      if e.status = .REVIEWED_DELETE_ON_MERGE ∧
          e.bringBackToReviewIfNotMergedUntilTimestamp ≤ now then 0
      else cr.bringBackToReviewIfNotMergedUntilTimestamp := by
  simp only [runStateMachine, finalizeLastChanged_fields, archiveStep_unchanged,
    unsnoozeUpdateStep_unchanged, unsnoozeTimeStep_unchanged, closeStep_unchanged,
    bringBackStep_fst_bringBack, mergeStep_unchanged, mentionStep_unchanged]

theorem runStateMachine_lastMention (g u a L now e cr) :
    (runStateMachine g u a L now e cr).lastMentionTimestamp =
      if mentionFires L a e then L.getD 0 else cr.lastMentionTimestamp := by
  simp only [runStateMachine, finalizeLastChanged_fields, archiveStep_unchanged,
    unsnoozeUpdateStep_unchanged, unsnoozeTimeStep_unchanged, closeStep_unchanged,
    bringBackStep_unchanged, mergeStep_unchanged, mentionStep_fst_lastMention]

theorem runStateMachine_deleteAfter (g u a L now e cr) :
    (runStateMachine g u a L now e cr).deleteAfterTimestamp =
      if (e.status ≠ .MERGED ∧ e.status ≠ .MENTIONED ∧ g = .MERGED) ∧
          e.status = .REVIEWED_DELETE_ON_MERGE then now + deleteAfterNowSeconds
      else if mentionFires L a e then 0
      else cr.deleteAfterTimestamp := by
  simp only [runStateMachine, finalizeLastChanged_fields, archiveStep_unchanged,
    unsnoozeUpdateStep_unchanged, unsnoozeTimeStep_unchanged, closeStep_unchanged,
    bringBackStep_unchanged, mergeStep_fst_deleteAfter, mentionStep_fst_deleteAfter]

theorem runStateMachine_renderOnlyFields (g u a L now e cr) :
    (runStateMachine g u a L now e cr).renderOnlyFields = cr.renderOnlyFields := by
  simp only [runStateMachine, finalizeLastChanged_fields, archiveStep_unchanged,
    unsnoozeUpdateStep_unchanged, unsnoozeTimeStep_unchanged, closeStep_unchanged,
    bringBackStep_unchanged, mergeStep_unchanged, mentionStep_unchanged]

theorem runStateMachine_lastRefreshed (g u a L now e cr) :
    (runStateMachine g u a L now e cr).lastRefreshedTimestamp = cr.lastRefreshedTimestamp := by
  simp only [runStateMachine, finalizeLastChanged_fields, archiveStep_unchanged,
    unsnoozeUpdateStep_unchanged, unsnoozeTimeStep_unchanged, closeStep_unchanged,
    bringBackStep_unchanged, mergeStep_unchanged, mentionStep_unchanged]

theorem runStateMachine_lastVisited (g u a L now e cr) :
    (runStateMachine g u a L now e cr).lastVisitedTimestamp = cr.lastVisitedTimestamp := by
  simp only [runStateMachine, finalizeLastChanged_fields, archiveStep_unchanged,
    unsnoozeUpdateStep_unchanged, unsnoozeTimeStep_unchanged, closeStep_unchanged,
    bringBackStep_unchanged, mergeStep_unchanged, mentionStep_unchanged]

theorem runStateMachine_lastChanged_or (g u a L now e cr) :
    (runStateMachine g u a L now e cr).lastChangedTimestamp = now ∨
    (runStateMachine g u a L now e cr).lastChangedTimestamp = cr.lastChangedTimestamp := by
  simp only [runStateMachine, finalizeLastChanged_lastChanged]
  split_ifs
  · left; rfl
  · right
    simp only [archiveStep_unchanged, unsnoozeUpdateStep_unchanged, unsnoozeTimeStep_unchanged,
      closeStep_unchanged, bringBackStep_unchanged, mergeStep_unchanged, mentionStep_unchanged]

theorem mergeWithExisting_deleted (g u a L now e cr) (h : e.status = .DELETED) :
    mergeWithExisting g u a L now e cr = mergeMonotoneFields e cr := by
  simp only [mergeWithExisting]
  rw [if_pos h]

theorem mergeWithExisting_not_deleted (g u a L now e cr) (h : e.status ≠ .DELETED) :
    mergeWithExisting g u a L now e cr =
      runStateMachine g u a L now e (mergeMonotoneFields e cr) := by
  simp only [mergeWithExisting]
  rw [if_neg h]

theorem convert_some_eq (issue : Issue) (o r : String) (e : CodeReview) (self : String)
    (trig : List String) (extra : ExtraInfoGraphQLQuery) (now : Int) :
    convertGitHubToWorkboardCodeReview issue o r (some e) self trig extra now =
      some (mergeWithExisting (ghPullRequestStatus issue) (issue.updatedAt.getD 0)
        (repoIsArchived extra)
        (discardOldMention (ghPullRequestStatus issue) now
          (computeLastMentionedAt trig extra.repository.pullRequest.comments))
        now e (buildFreshCodeReview issue o r self extra now)) := rfl

theorem convert_none_eq (issue : Issue) (o r : String) (self : String)
    (trig : List String) (extra : ExtraInfoGraphQLQuery) (now t : Int)
    (h : issue.updatedAt = some t) :
    convertGitHubToWorkboardCodeReview issue o r none self trig extra now =
      some { buildFreshCodeReview issue o r self extra now with lastChangedTimestamp := t } := by
  unfold convertGitHubToWorkboardCodeReview
  rw [h]

theorem buildFreshCodeReview_fields (issue : Issue) (o r self : String)
    (extra : ExtraInfoGraphQLQuery) (now : Int) :
    (buildFreshCodeReview issue o r self extra now).status = .NEW ∧
    (buildFreshCodeReview issue o r self extra now).lastChangedTimestamp = 0 ∧
    (buildFreshCodeReview issue o r self extra now).lastMentionTimestamp = 0 ∧
    (buildFreshCodeReview issue o r self extra now).lastRefreshedTimestamp = now ∧
    (buildFreshCodeReview issue o r self extra now).lastVisitedTimestamp = 0 ∧
    (buildFreshCodeReview issue o r self extra now).deleteAfterTimestamp = 0 ∧
    (buildFreshCodeReview issue o r self extra now).snoozeUntilTimestamp = 0 ∧
    (buildFreshCodeReview issue o r self extra now).snoozeUntilUpdatedAtChangedFrom = 0 ∧
    (buildFreshCodeReview issue o r self extra now).bringBackToReviewIfNotMergedUntilTimestamp = 0 := by
  simp [buildFreshCodeReview]

/-- C1: Per spec, a fresh mention (configured trigger, newer than
`lastMention`, repo not archived, within the 14-day window) must resurrect a
`DELETED` record to `MENTIONED` with updated `lastMention`. The code instead
returns early for `DELETED` records before the mention rule: at this failing
input every premise of the claim holds, yet the output keeps status
`DELETED` and `lastMention = 0`. -/
theorem C1_code_bug_eval :
    computeLastMentionedAt ["@me"] wExtraMention.repository.pullRequest.comments = some 9000 ∧
    wDeleted.status = CodeReviewStatus.DELETED ∧
    wDeleted.lastMentionTimestamp = 0 ∧
    repoIsArchived wExtraMention = false ∧
    (convertGitHubToWorkboardCodeReview wIssueOpen "acme" "widgets" (some wDeleted)
        "alice" ["@me"] wExtraMention 10000).map
      (fun cr => (cr.status, cr.lastMentionTimestamp)) =
      some (CodeReviewStatus.DELETED, 0) := by
  refine ⟨by decide, rfl, rfl, rfl, by decide⟩

/-- C6: first sighting (`existing` absent) always yields `status = NEW` and
`lastChanged = remote.updatedAt`, with no transition rule applied. -/
theorem C6_first_sighting (issue : Issue) (o r self : String) (trig : List String)
    (extra : ExtraInfoGraphQLQuery) (now t : Int) (h : issue.updatedAt = some t) :
    ∃ cr, convertGitHubToWorkboardCodeReview issue o r none self trig extra now = some cr ∧
      cr.status = CodeReviewStatus.NEW ∧ cr.lastChangedTimestamp = t := by
  refine ⟨_, convert_none_eq issue o r self trig extra now t h, ?_, rfl⟩
  exact (buildFreshCodeReview_fields issue o r self extra now).1

/-- Witness for C6 at a concrete first sighting. -/
theorem C6_witness :
    ∃ cr, convertGitHubToWorkboardCodeReview wIssueOpen "acme" "widgets" none
        "alice" ["@me"] wExtraPlain 10000 = some cr ∧
      cr.status = CodeReviewStatus.NEW ∧ cr.lastChangedTimestamp = 5000 :=
  C6_first_sighting wIssueOpen "acme" "widgets" "alice" ["@me"] wExtraPlain 10000 5000 rfl

theorem mergeWithExisting_renderOnly (g u a L now e cr) :
    (mergeWithExisting g u a L now e cr).renderOnlyFields = cr.renderOnlyFields := by
  by_cases h : e.status = .DELETED
  · rw [mergeWithExisting_deleted g u a L now e cr h]
    exact (mergeMonotoneFields_fields e cr).2.2.1
  · rw [mergeWithExisting_not_deleted g u a L now e cr h, runStateMachine_renderOnlyFields]
    exact (mergeMonotoneFields_fields e cr).2.2.1

/-- C9: render-only fields are recomputed from the fresh snapshot and
configuration alone: reconciling one remote snapshot against any two existing
records yields identical render fields (no stale value is merged in). -/
theorem C9_renderFields (issue : Issue) (o r self : String) (trig : List String)
    (extra : ExtraInfoGraphQLQuery) (now : Int) (e1 e2 : CodeReview) :
    (convertGitHubToWorkboardCodeReview issue o r (some e1) self trig extra now).map
        (fun cr => cr.renderOnlyFields) =
    (convertGitHubToWorkboardCodeReview issue o r (some e2) self trig extra now).map
        (fun cr => cr.renderOnlyFields) := by
  rw [convert_some_eq, convert_some_eq]
  simp only [Option.map_some', mergeWithExisting_renderOnly]

/-- C10: reconciliation never carries over the stored `deleteAfter`: with an
existing record the output `deleteAfter` is `now + 2592000` exactly when the
merge-while-reviewed rule fires in this call (existing status
`REVIEWED_DELETE_ON_MERGE` and remote state merged), and `0` otherwise — in
particular a `DELETED` record's pending `deleteAfter` is reset to `0`. -/
theorem C10_deleteAfter (issue : Issue) (o r self : String) (trig : List String)
    (extra : ExtraInfoGraphQLQuery) (now : Int) (e : CodeReview) :
    (convertGitHubToWorkboardCodeReview issue o r (some e) self trig extra now).map
        (fun cr => cr.deleteAfterTimestamp) =
      some (if e.status = CodeReviewStatus.REVIEWED_DELETE_ON_MERGE ∧
          ghPullRequestStatus issue = .MERGED then now + 2592000 else 0) := by
  rw [convert_some_eq]
  simp only [Option.map_some']
  obtain ⟨-, -, -, -, -, -, -, -, -, -, -, hda⟩ :=
    mergeMonotoneFields_fields e (buildFreshCodeReview issue o r self extra now)
  have hfa := (buildFreshCodeReview_fields issue o r self extra now).2.2.2.2.2.1
  by_cases hd : e.status = .DELETED
  · rw [mergeWithExisting_deleted _ _ _ _ _ _ _ hd, hda, hfa, if_neg]
    rintro ⟨h1, -⟩
    rw [hd] at h1
    exact absurd h1 (by decide)
  · rw [mergeWithExisting_not_deleted _ _ _ _ _ _ _ hd, runStateMachine_deleteAfter, hda, hfa]
    have hcond : ((e.status ≠ CodeReviewStatus.MERGED ∧ e.status ≠ CodeReviewStatus.MENTIONED ∧
        ghPullRequestStatus issue = .MERGED) ∧
        e.status = CodeReviewStatus.REVIEWED_DELETE_ON_MERGE) ↔
        (e.status = CodeReviewStatus.REVIEWED_DELETE_ON_MERGE ∧
          ghPullRequestStatus issue = .MERGED) := by
      constructor
      · rintro ⟨⟨-, -, hm⟩, hr⟩
        exact ⟨hr, hm⟩
      · rintro ⟨hr, hm⟩
        refine ⟨⟨?_, ?_, hm⟩, hr⟩ <;> rw [hr] <;> decide
    rw [if_congr hcond rfl rfl, ite_self]
    norm_num [deleteAfterNowSeconds]

theorem mentionFires_gt (L : Option Int) (a : Bool) (e : CodeReview)
    (h : mentionFires L a e = true) : e.lastMentionTimestamp < L.getD 0 := by
  rcases L with _ | t
  · simp [mentionFires] at h
  · simp only [mentionFires, Bool.and_eq_true, decide_eq_true_eq, Bool.not_eq_true'] at h
    simpa using h.1

/-- C3 counterexample: a `REVIEWED_DELETE_ON_MERGE` record whose bring-back
deadline already passed, reconciled against a merged snapshot, ends as
`MUST_REVIEW` (the review-window rule fires after the merge rule), not
`DELETED` as the claim states. -/
theorem C3_counterexample :
    wRdomExpired.status = CodeReviewStatus.REVIEWED_DELETE_ON_MERGE ∧
    ghPullRequestStatus wIssueMerged = .MERGED ∧
    (convertGitHubToWorkboardCodeReview wIssueMerged "acme" "widgets" (some wRdomExpired)
        "alice" ["@me"] wExtraPlain 10000).map (fun cr => cr.status) =
      some CodeReviewStatus.MUST_REVIEW ∧
    CodeReviewStatus.MUST_REVIEW ≠ CodeReviewStatus.DELETED := by decide

/-- C3 amended: with existing status `REVIEWED_DELETE_ON_MERGE` and a merged
remote snapshot, provided the bring-back deadline has not yet passed
(`now < bringBack`) and the repository is not archived, the output is
`DELETED` with `deleteAfter = now + 2592000`. -/
theorem C3_amended (issue : Issue) (o r self : String) (trig : List String)
    (extra : ExtraInfoGraphQLQuery) (now : Int) (e : CodeReview)
    (h1 : e.status = CodeReviewStatus.REVIEWED_DELETE_ON_MERGE)
    (h2 : ghPullRequestStatus issue = .MERGED)
    (h3 : repoIsArchived extra = false)
    (h4 : now < e.bringBackToReviewIfNotMergedUntilTimestamp) :
    ∃ cr, convertGitHubToWorkboardCodeReview issue o r (some e) self trig extra now = some cr ∧
      cr.status = CodeReviewStatus.DELETED ∧ cr.deleteAfterTimestamp = now + 2592000 := by
  rw [convert_some_eq]
  have hd : e.status ≠ CodeReviewStatus.DELETED := by rw [h1]; decide
  rw [mergeWithExisting_not_deleted _ _ _ _ _ _ _ hd]
  refine ⟨_, rfl, ?_, ?_⟩
  · rw [runStateMachine_status]
    have hb : ¬(e.bringBackToReviewIfNotMergedUntilTimestamp ≤ now) := by omega
    simp [h1, h2, h3, hb]
  · rw [runStateMachine_deleteAfter,
      if_pos ⟨⟨by rw [h1]; decide, by rw [h1]; decide, h2⟩, h1⟩]
    norm_num [deleteAfterNowSeconds]

/-- Witness for C3 (amended) at a concrete merged PR with a future bring-back
deadline. -/
theorem C3_witness :
    ∃ cr, convertGitHubToWorkboardCodeReview wIssueMerged "acme" "widgets" (some wRdomFuture)
        "alice" ["@me"] wExtraPlain 10000 = some cr ∧
      cr.status = CodeReviewStatus.DELETED ∧ cr.deleteAfterTimestamp = 10000 + 2592000 :=
  C3_amended wIssueMerged "acme" "widgets" "alice" ["@me"] wExtraPlain 10000 wRdomFuture
    rfl rfl rfl (by decide)

/-- C5 counterexample: when a rule fires while `now` is earlier than the
stored `lastChanged` (clock skew), the output `lastChanged` moves backward
(500 < 20000), contradicting the unconditional monotonicity claim. -/
theorem C5_counterexample :
    (convertGitHubToWorkboardCodeReview wIssueOpen "acme" "widgets" (some wSnoozedLate)
        "alice" ["@me"] wExtraPlain 500).map (fun cr => cr.lastChangedTimestamp) =
      some 500 ∧
    wSnoozedLate.lastChangedTimestamp = 20000 ∧
    ¬((20000 : Int) ≤ 500) := by decide

/-- C5 amended: `lastRefreshed`, `lastMention` and `lastVisited` never move
backward across a reconciliation, unconditionally; `lastChanged` also does
not, provided the reconcile time `now` is not earlier than the stored
`lastChanged` (a firing rule overwrites `lastChanged` with `now` rather than
a max). -/
theorem C5_amended (issue : Issue) (o r self : String) (trig : List String)
    (extra : ExtraInfoGraphQLQuery) (now : Int) (e : CodeReview) :
    ∃ cr, convertGitHubToWorkboardCodeReview issue o r (some e) self trig extra now = some cr ∧
      e.lastRefreshedTimestamp ≤ cr.lastRefreshedTimestamp ∧
      e.lastMentionTimestamp ≤ cr.lastMentionTimestamp ∧
      e.lastVisitedTimestamp ≤ cr.lastVisitedTimestamp ∧
      (e.lastChangedTimestamp ≤ now → e.lastChangedTimestamp ≤ cr.lastChangedTimestamp) := by
  rw [convert_some_eq]
  obtain ⟨-, -, -, hlc, hlm, hlr, hlv, -, -, -, -, -⟩ :=
    mergeMonotoneFields_fields e (buildFreshCodeReview issue o r self extra now)
  by_cases hd : e.status = CodeReviewStatus.DELETED
  · rw [mergeWithExisting_deleted _ _ _ _ _ _ _ hd]
    refine ⟨_, rfl, ?_, ?_, ?_, ?_⟩
    · rw [hlr]
      exact le_max_left _ _
    · rw [hlm]
      exact le_max_left _ _
    · rw [hlv]
      exact le_max_left _ _
    · intro _
      rw [hlc]
      exact le_max_left _ _
  · rw [mergeWithExisting_not_deleted _ _ _ _ _ _ _ hd]
    refine ⟨_, rfl, ?_, ?_, ?_, ?_⟩
    · rw [runStateMachine_lastRefreshed, hlr]
      exact le_max_left _ _
    · rw [runStateMachine_lastMention]
      split_ifs with hm
      · exact (mentionFires_gt _ _ _ hm).le
      · rw [hlm]
        exact le_max_left _ _
    · rw [runStateMachine_lastVisited, hlv]
      exact le_max_left _ _
    · intro hnow
      rcases runStateMachine_lastChanged_or (ghPullRequestStatus issue)
          (issue.updatedAt.getD 0) (repoIsArchived extra)
          (discardOldMention (ghPullRequestStatus issue) now
            (computeLastMentionedAt trig extra.repository.pullRequest.comments)) now e
          (mergeMonotoneFields e (buildFreshCodeReview issue o r self extra now)) with h | h
      · rw [h]
        exact hnow
      · rw [h, hlc]
        exact le_max_left _ _

/-- Witness for C5 (amended) at a concrete reconcile with `now` ahead of the
stored `lastChanged`, discharging the `lastChanged ≤ now` condition there. -/
theorem C5_witness :
    ∃ cr, convertGitHubToWorkboardCodeReview wIssueOpen "acme" "widgets" (some wSnoozed)
        "alice" ["@me"] wExtraPlain 10000 = some cr ∧
      wSnoozed.lastRefreshedTimestamp ≤ cr.lastRefreshedTimestamp ∧
      wSnoozed.lastMentionTimestamp ≤ cr.lastMentionTimestamp ∧
      wSnoozed.lastVisitedTimestamp ≤ cr.lastVisitedTimestamp ∧
      wSnoozed.lastChangedTimestamp ≤ cr.lastChangedTimestamp := by
  obtain ⟨cr, h1, h2, h3, h4, h5⟩ :=
    C5_amended wIssueOpen "acme" "widgets" "alice" ["@me"] wExtraPlain 10000 wSnoozed
  exact ⟨cr, h1, h2, h3, h4, h5 (by decide)⟩

theorem refreshReviewsLoop_cons (fetch : String → Option CodeReview) (store : Store)
    (id : String) (rest : List String) :
    refreshReviewsLoop fetch store (id :: rest) =
      match refreshCodeReview fetch store id with
      | none => (store, [id], false)
      | some store' =>
        let r := refreshReviewsLoop fetch store' rest
        (r.1, id :: r.2.1, r.2.2) := rfl

theorem refreshReviewsLoop_abort (fetch : String → Option CodeReview) (store st1 : Store)
    (pre : List String) (f : String) (post : List String)
    (hpre : applyRefreshes fetch store pre = some st1)
    (hf : refreshCodeReview fetch st1 f = none) :
    refreshReviewsLoop fetch store (pre ++ f :: post) = (st1, pre ++ [f], false) := by
  induction pre generalizing store with
  | nil =>
    simp only [applyRefreshes, Option.some_inj] at hpre
    subst hpre
    simp only [List.nil_append]
    rw [refreshReviewsLoop_cons, hf]
  | cons a pre ih =>
    simp only [applyRefreshes] at hpre
    cases hh : refreshCodeReview fetch store a with
    | none =>
      rw [hh, Option.none_bind] at hpre
      exact absurd hpre (by simp)
    | some store' =>
      rw [hh, Option.some_bind] at hpre
      rw [List.cons_append, refreshReviewsLoop_cons, hh]
      dsimp only
      rw [ih store' hpre]
      simp

/-- C7: a refresh batch naming zero ids or more than 20 ids is rejected
before any refresh is attempted: the store is unchanged, no id is attempted,
and an error is returned. -/
theorem C7_batch_validation (fetch : String → Option CodeReview) (ids : List String)
    (store : Store) (h : ids.length = 0 ∨ ids.length > 20) :
    RefreshReviews fetch ids store = (store, [], false) := by
  rcases h with h | h
  · unfold RefreshReviews
    rw [if_pos (by omega)]
  · unfold RefreshReviews
    rw [if_neg (by omega), if_pos h]

/-- Witness for C7: an empty batch and a batch of 21 ids are both rejected
with no attempt and no store change. -/
theorem C7_witness :
    RefreshReviews wFetchOnlyA [] wStore = (wStore, [], false) ∧
    RefreshReviews wFetchOnlyA
      ["a", "b", "c", "a", "b", "c", "a", "b", "c", "a", "b", "c", "a", "b", "c",
        "a", "b", "c", "a", "b", "c"] wStore = (wStore, [], false) :=
  ⟨C7_batch_validation wFetchOnlyA [] wStore (Or.inl rfl),
   C7_batch_validation wFetchOnlyA _ wStore (Or.inr (by decide))⟩

/-- C4 counterexample: in the batch `["a", "b"]` the refresh of `"a"` fails,
and `"b"` is never attempted — contradicting the claim that every id is
attempted regardless of earlier failures. -/
theorem C4_counterexample :
    (RefreshReviews (fun _ => none) ["a", "b"] wStore).2.1 = ["a"] ∧
    (["a"] : List String) ≠ ["a", "b"] := by decide

/-- C4 amended: the `RefreshReviews` loop aborts on the first failing id: for
a valid batch `pre ++ f :: post` whose prefix `pre` refreshes successfully
(reaching store `st1`) and whose id `f` then fails, the ids after `f` are not
attempted, the batch returns an error, and the store writes of `pre` stand
(the final store is `st1`, not rolled back). -/
theorem C4_amended (fetch : String → Option CodeReview) (store st1 : Store)
    (pre : List String) (f : String) (post : List String)
    (hpre : applyRefreshes fetch store pre = some st1)
    (hf : refreshCodeReview fetch st1 f = none)
    (hlen : (pre ++ f :: post).length ≤ 20) :
    RefreshReviews fetch (pre ++ f :: post) store = (st1, pre ++ [f], false) := by
  unfold RefreshReviews
  rw [if_neg (by simp), if_neg (by omega)]
  exact refreshReviewsLoop_abort fetch store st1 pre f post hpre hf

/-- Witness for C4 (amended): batch `["a", "b", "c"]` where `"a"` succeeds
and `"b"` fails; `"c"` is not attempted and `"a"`'s write stands. -/
theorem C4_witness :
    RefreshReviews wFetchOnlyA ["a", "b", "c"] wStore =
      (storeSet wStore "a" { wSnoozed with id := "a" }, ["a", "b"], false) :=
  C4_amended wFetchOnlyA wStore (storeSet wStore "a" { wSnoozed with id := "a" })
    ["a"] "b" ["c"] (by decide) (by decide) (by decide)

/-- C8: `SnoozeUntilTime` rejects a target timestamp not more than 60 seconds
ahead of `now` (or non-positive) without producing any store write; for a
target more than 60 seconds ahead on an existing record (with GitHub fields),
it stores the record with status `SNOOZED_UNTIL_TIME`,
`snoozeUntilTimestamp` set to the target and `lastChanged = now`
(`0 ≤ now`: `now` is a Unix timestamp). -/
theorem C8_snooze (store : Store) (id : String) (ts now : Int) (cr : CodeReview)
    (gf : GitHubPullRequestFields) :
    ((ts ≤ now + 60 ∨ ts ≤ 0) → (SnoozeUntilTime store id ts now).toOption = none) ∧
    (0 ≤ now → now + 60 < ts → storeGet store id = some cr → cr.githubFields = some gf →
      SnoozeUntilTime store id ts now = .ok (storeSet store id
        { cr with
            status := CodeReviewStatus.SNOOZED_UNTIL_TIME
            lastChangedTimestamp := now
            snoozeUntilTimestamp := ts })) := by
  constructor
  · intro h
    unfold SnoozeUntilTime
    rcases h with h | h
    · by_cases h0 : ts ≤ 0
      · rw [if_pos h0]
        rfl
      · rw [if_neg h0, if_pos h]
        rfl
    · rw [if_pos h]
      rfl
  · intro h0 h1 h2 h3
    have a1 : ¬(ts ≤ 0) := by omega
    have a2 : ¬(ts ≤ now + 60) := by omega
    simp only [SnoozeUntilTime, if_neg a1, if_neg a2, h2, h3]

/-- Witness for C8: a rejected target (150, only 50s ahead of 100) leaves no
result; an accepted target (1000) stores the snoozed record. -/
theorem C8_witness :
    (SnoozeUntilTime wStore "a" 150 100).toOption = none ∧
    SnoozeUntilTime wStore "a" 1000 100 = .ok (storeSet wStore "a"
      { { wMustReview with id := "a" } with
          status := CodeReviewStatus.SNOOZED_UNTIL_TIME
          lastChangedTimestamp := 100
          snoozeUntilTimestamp := 1000 }) :=
  ⟨(C8_snooze wStore "a" 150 100 wMustReview wGithubFields).1 (Or.inl (by decide)),
   (C8_snooze wStore "a" 1000 100 { wMustReview with id := "a" } wGithubFields).2
      (by decide) (by decide) rfl rfl⟩

theorem runStateMachine_status_open (u : Int) (L : Option Int) (now : Int) (e cr : CodeReview) :
    (runStateMachine .OPEN u false L now e cr).status =
      if e.status = .SNOOZED_UNTIL_UPDATE ∧ u ≠ e.snoozeUntilUpdatedAtChangedFrom then
        .UPDATED_AFTER_SNOOZE
      else if e.status = .SNOOZED_UNTIL_TIME ∧ e.snoozeUntilTimestamp ≤ now then .MUST_REVIEW
      else if e.status = .REVIEWED_DELETE_ON_MERGE ∧
          e.bringBackToReviewIfNotMergedUntilTimestamp ≤ now then .MUST_REVIEW
      else if mentionFires L false e then .MENTIONED
      else cr.status := by
  rw [runStateMachine_status]
  simp

theorem mwe_open_fields (u : Int) (L : Option Int) (now : Int) (e cr : CodeReview)
    (hd : e.status ≠ .DELETED) :
    (mergeWithExisting .OPEN u false L now e cr).status =
      (if e.status = .SNOOZED_UNTIL_UPDATE ∧ u ≠ e.snoozeUntilUpdatedAtChangedFrom then
        .UPDATED_AFTER_SNOOZE
      else if e.status = .SNOOZED_UNTIL_TIME ∧ e.snoozeUntilTimestamp ≤ now then .MUST_REVIEW
      else if e.status = .REVIEWED_DELETE_ON_MERGE ∧
          e.bringBackToReviewIfNotMergedUntilTimestamp ≤ now then .MUST_REVIEW
      else if mentionFires L false e then .MENTIONED
      else if e.status ≠ .UNSPECIFIED then e.status else cr.status) ∧
    (mergeWithExisting .OPEN u false L now e cr).snoozeUntilTimestamp =
      (if e.status = .SNOOZED_UNTIL_TIME ∧ e.snoozeUntilTimestamp ≤ now then 0
       else e.snoozeUntilTimestamp) ∧
    (mergeWithExisting .OPEN u false L now e cr).snoozeUntilUpdatedAtChangedFrom =
      (if e.status = .SNOOZED_UNTIL_UPDATE ∧ u ≠ e.snoozeUntilUpdatedAtChangedFrom then 0
       else e.snoozeUntilUpdatedAtChangedFrom) ∧
    (mergeWithExisting .OPEN u false L now e cr).bringBackToReviewIfNotMergedUntilTimestamp =
      (if e.status = .REVIEWED_DELETE_ON_MERGE ∧
          e.bringBackToReviewIfNotMergedUntilTimestamp ≤ now then 0
       else e.bringBackToReviewIfNotMergedUntilTimestamp) ∧
    (mergeWithExisting .OPEN u false L now e cr).lastMentionTimestamp =
      (if mentionFires L false e then L.getD 0
       else max e.lastMentionTimestamp cr.lastMentionTimestamp) := by
  obtain ⟨-, -, -, -, hm5, -, -, -, h9, h10, h11, -⟩ := mergeMonotoneFields_fields e cr
  rw [mergeWithExisting_not_deleted _ _ _ _ _ _ _ hd]
  refine ⟨?_, ?_, ?_, ?_, ?_⟩
  · rw [runStateMachine_status_open, mergeMonotoneFields_status]
  · rw [runStateMachine_snoozeUntil, h11]
  · rw [runStateMachine_snoozeFrom, h9]
  · rw [runStateMachine_bringBack, h10]
  · rw [runStateMachine_lastMention, hm5]

theorem mwe_out_status_ne (u : Int) (L : Option Int) (now : Int) (e cr : CodeReview)
    (hd : e.status ≠ .DELETED) (hcr : cr.status = .NEW) :
    (mergeWithExisting .OPEN u false L now e cr).status ≠ .DELETED ∧
    (mergeWithExisting .OPEN u false L now e cr).status ≠ .UNSPECIFIED := by
  obtain ⟨hs, -, -, -, -⟩ := mwe_open_fields u L now e cr hd
  rw [hs]
  constructor <;>
    (split_ifs with h1 h2 h3 h4 h5 <;> first | decide | assumption | (rw [hcr]; decide))

theorem mwe_no_refire_U (u : Int) (L : Option Int) (now : Int) (e cr : CodeReview)
    (hd : e.status ≠ .DELETED) (hcr : cr.status = .NEW) :
    ¬((mergeWithExisting .OPEN u false L now e cr).status = .SNOOZED_UNTIL_UPDATE ∧
      u ≠ (mergeWithExisting .OPEN u false L now e cr).snoozeUntilUpdatedAtChangedFrom) := by
  obtain ⟨hs, -, hsf, -, -⟩ := mwe_open_fields u L now e cr hd
  rintro ⟨ha, hb⟩
  rw [hs] at ha
  rw [hsf] at hb
  by_cases hU : e.status = .SNOOZED_UNTIL_UPDATE ∧ u ≠ e.snoozeUntilUpdatedAtChangedFrom
  · rw [if_pos hU] at ha
    exact absurd ha (by decide)
  · rw [if_neg hU] at ha
    rw [if_neg hU] at hb
    split_ifs at ha with h2 h3 h4 h5
    · exact hU ⟨ha, hb⟩
    · rw [hcr] at ha
      exact absurd ha (by decide)

theorem mwe_no_refire_S (u : Int) (L : Option Int) (now : Int) (e cr : CodeReview)
    (hd : e.status ≠ .DELETED) (hcr : cr.status = .NEW) :
    ¬((mergeWithExisting .OPEN u false L now e cr).status = .SNOOZED_UNTIL_TIME ∧
      (mergeWithExisting .OPEN u false L now e cr).snoozeUntilTimestamp ≤ now) := by
  obtain ⟨hs, hsu, -, -, -⟩ := mwe_open_fields u L now e cr hd
  rintro ⟨ha, hb⟩
  rw [hs] at ha
  rw [hsu] at hb
  by_cases hS : e.status = .SNOOZED_UNTIL_TIME ∧ e.snoozeUntilTimestamp ≤ now
  · have hU : ¬(e.status = .SNOOZED_UNTIL_UPDATE ∧ u ≠ e.snoozeUntilUpdatedAtChangedFrom) := by
      simp [hS.1]
    rw [if_neg hU, if_pos hS] at ha
    exact absurd ha (by decide)
  · rw [if_neg hS] at hb
    split_ifs at ha with h1 h3 h4 h5
    · exact hS ⟨ha, hb⟩
    · rw [hcr] at ha
      exact absurd ha (by decide)

theorem mwe_no_refire_B (u : Int) (L : Option Int) (now : Int) (e cr : CodeReview)
    (hd : e.status ≠ .DELETED) (hcr : cr.status = .NEW) :
    ¬((mergeWithExisting .OPEN u false L now e cr).status = .REVIEWED_DELETE_ON_MERGE ∧
      (mergeWithExisting .OPEN u false L now e cr).bringBackToReviewIfNotMergedUntilTimestamp
        ≤ now) := by
  obtain ⟨hs, -, -, hbb, -⟩ := mwe_open_fields u L now e cr hd
  rintro ⟨ha, hb⟩
  rw [hs] at ha
  rw [hbb] at hb
  by_cases hB : e.status = .REVIEWED_DELETE_ON_MERGE ∧
      e.bringBackToReviewIfNotMergedUntilTimestamp ≤ now
  · have hU : ¬(e.status = .SNOOZED_UNTIL_UPDATE ∧ u ≠ e.snoozeUntilUpdatedAtChangedFrom) := by
      simp [hB.1]
    have hS : ¬(e.status = .SNOOZED_UNTIL_TIME ∧ e.snoozeUntilTimestamp ≤ now) := by
      simp [hB.1]
    rw [if_neg hU, if_neg hS, if_pos hB] at ha
    exact absurd ha (by decide)
  · rw [if_neg hB] at hb
    split_ifs at ha with h1 h2 h4 h5
    · exact hB ⟨ha, hb⟩
    · rw [hcr] at ha
      exact absurd ha (by decide)

theorem mwe_no_refire_M (u : Int) (L : Option Int) (now : Int) (e cr : CodeReview)
    (hd : e.status ≠ .DELETED) :
    mentionFires L false (mergeWithExisting .OPEN u false L now e cr) = false := by
  obtain ⟨-, -, -, -, hlm⟩ := mwe_open_fields u L now e cr hd
  rcases L with _ | t
  · rfl
  · simp only [mentionFires, Bool.not_false, Bool.and_true]
    rw [decide_eq_false_iff_not]
    rw [hlm]
    cases hMb : mentionFires (some t) false e with
    | true => simp
    | false =>
      rw [if_neg (by decide : ¬(false = true))]
      simp only [mentionFires, Bool.not_false, Bool.and_true,
        decide_eq_false_iff_not, not_lt] at hMb
      have h2 := le_max_left e.lastMentionTimestamp cr.lastMentionTimestamp
      omega

theorem mwe_open_fp (u : Int) (L : Option Int) (now : Int) (e cr : CodeReview)
    (hcr : cr.status = .NEW) :
    (mergeWithExisting .OPEN u false L now
        (mergeWithExisting .OPEN u false L now e cr) cr).status =
      (mergeWithExisting .OPEN u false L now e cr).status ∧
    (mergeWithExisting .OPEN u false L now
        (mergeWithExisting .OPEN u false L now e cr) cr).snoozeUntilTimestamp =
      (mergeWithExisting .OPEN u false L now e cr).snoozeUntilTimestamp ∧
    (mergeWithExisting .OPEN u false L now
        (mergeWithExisting .OPEN u false L now e cr) cr).snoozeUntilUpdatedAtChangedFrom =
      (mergeWithExisting .OPEN u false L now e cr).snoozeUntilUpdatedAtChangedFrom ∧
    (mergeWithExisting .OPEN u false L now
        (mergeWithExisting .OPEN u false L now e cr) cr).bringBackToReviewIfNotMergedUntilTimestamp =
      (mergeWithExisting .OPEN u false L now e cr).bringBackToReviewIfNotMergedUntilTimestamp := by
  by_cases hd : e.status = .DELETED
  · have hs1 : (mergeWithExisting .OPEN u false L now e cr).status = .DELETED := by
      rw [mergeWithExisting_deleted .OPEN u false L now e cr hd, mergeMonotoneFields_status,
        if_pos (by rw [hd]; decide), hd]
    rw [mergeWithExisting_deleted .OPEN u false L now
      (mergeWithExisting .OPEN u false L now e cr) cr hs1]
    obtain ⟨-, -, -, -, -, -, -, -, h9, h10, h11, -⟩ :=
      mergeMonotoneFields_fields (mergeWithExisting .OPEN u false L now e cr) cr
    refine ⟨?_, h11, h9, h10⟩
    rw [mergeMonotoneFields_status, if_pos (by rw [hs1]; decide)]
  · have hnd := mwe_out_status_ne u L now e cr hd hcr
    have hU2 := mwe_no_refire_U u L now e cr hd hcr
    have hS2 := mwe_no_refire_S u L now e cr hd hcr
    have hB2 := mwe_no_refire_B u L now e cr hd hcr
    have hM2 := mwe_no_refire_M u L now e cr hd
    obtain ⟨hs2, hsu2, hsf2, hbb2, -⟩ :=
      mwe_open_fields u L now (mergeWithExisting .OPEN u false L now e cr) cr hnd.1
    refine ⟨?_, ?_, ?_, ?_⟩
    · rw [hs2, if_neg hU2, if_neg hS2, if_neg hB2, hM2,
        if_neg (by decide : ¬(false = true)), if_pos hnd.2]
    · rw [hsu2, if_neg hS2]
    · rw [hsf2, if_neg hU2]
    · rw [hbb2, if_neg hB2]

theorem ghPullRequestStatus_open (issue : Issue) (h : issue.state = "open") :
    ghPullRequestStatus issue = .OPEN := by
  simp [ghPullRequestStatus, h]

/-- C2 counterexample: with an unchanged merged snapshot and an expired
`SNOOZED_UNTIL_TIME` record, the first reconcile ends at `MUST_REVIEW` (merge
rule then time-unsnooze rule both fire), and reconciling its own output again
moves the status to `MERGED` — repeated application with unchanged input is
not a fixed point. -/
theorem C2_counterexample :
    (convertGitHubToWorkboardCodeReview wIssueMerged "acme" "widgets" (some wSnoozed)
        "alice" ["@me"] wExtraPlain 10000).map (fun cr => cr.status) =
      some CodeReviewStatus.MUST_REVIEW ∧
    ((convertGitHubToWorkboardCodeReview wIssueMerged "acme" "widgets" (some wSnoozed)
        "alice" ["@me"] wExtraPlain 10000).bind (fun cr1 =>
      convertGitHubToWorkboardCodeReview wIssueMerged "acme" "widgets" (some cr1)
        "alice" ["@me"] wExtraPlain 10000)).map (fun cr => cr.status) =
      some CodeReviewStatus.MERGED ∧
    CodeReviewStatus.MERGED ≠ CodeReviewStatus.MUST_REVIEW := by decide

/-- C2 amended: reconciliation is a fixed point on the status and the
snooze-scoped fields provided the remote snapshot reports an open PR in a
non-archived repository. (With a merged/closed or archived snapshot, a rule
firing in the first call can change the status to one on which the merge,
close or archival rule fires again in the second call.) -/
theorem C2_amended (issue : Issue) (o r self : String) (trig : List String)
    (extra : ExtraInfoGraphQLQuery) (now : Int) (e out1 : CodeReview)
    (hopen : issue.state = "open")
    (harch : repoIsArchived extra = false)
    (h1 : convertGitHubToWorkboardCodeReview issue o r (some e) self trig extra now =
      some out1) :
    ∃ out2, convertGitHubToWorkboardCodeReview issue o r (some out1) self trig extra now =
        some out2 ∧
      out2.status = out1.status ∧
      out2.snoozeUntilTimestamp = out1.snoozeUntilTimestamp ∧
      out2.snoozeUntilUpdatedAtChangedFrom = out1.snoozeUntilUpdatedAtChangedFrom ∧
      out2.bringBackToReviewIfNotMergedUntilTimestamp =
        out1.bringBackToReviewIfNotMergedUntilTimestamp := by
  have hg := ghPullRequestStatus_open issue hopen
  rw [convert_some_eq, hg, harch] at h1
  rw [convert_some_eq, hg, harch]
  obtain rfl := (Option.some_inj.mp h1).symm
  exact ⟨_, rfl,
    mwe_open_fp (issue.updatedAt.getD 0)
      (discardOldMention GitHubPullRequestStatus.OPEN now
        (computeLastMentionedAt trig extra.repository.pullRequest.comments)) now e
      (buildFreshCodeReview issue o r self extra now)
      (buildFreshCodeReview_fields issue o r self extra now).1⟩

/-- Witness for C2 (amended) at a concrete open, non-archived snapshot. -/
theorem C2_witness :
    ∃ out2, convertGitHubToWorkboardCodeReview wIssueOpen "acme" "widgets"
        (some (mergeWithExisting .OPEN 5000 false
          (discardOldMention .OPEN 10000 (computeLastMentionedAt ["@me"]
            wExtraPlain.repository.pullRequest.comments)) 10000 wSnoozed
          (buildFreshCodeReview wIssueOpen "acme" "widgets" "alice" wExtraPlain 10000)))
        "alice" ["@me"] wExtraPlain 10000 = some out2 ∧
      out2.status = (mergeWithExisting .OPEN 5000 false
          (discardOldMention .OPEN 10000 (computeLastMentionedAt ["@me"]
            wExtraPlain.repository.pullRequest.comments)) 10000 wSnoozed
          (buildFreshCodeReview wIssueOpen "acme" "widgets" "alice" wExtraPlain 10000)).status ∧
      out2.snoozeUntilTimestamp = (mergeWithExisting .OPEN 5000 false
          (discardOldMention .OPEN 10000 (computeLastMentionedAt ["@me"]
            wExtraPlain.repository.pullRequest.comments)) 10000 wSnoozed
          (buildFreshCodeReview wIssueOpen "acme" "widgets" "alice" wExtraPlain
            10000)).snoozeUntilTimestamp ∧
      out2.snoozeUntilUpdatedAtChangedFrom = (mergeWithExisting .OPEN 5000 false
          (discardOldMention .OPEN 10000 (computeLastMentionedAt ["@me"]
            wExtraPlain.repository.pullRequest.comments)) 10000 wSnoozed
          (buildFreshCodeReview wIssueOpen "acme" "widgets" "alice" wExtraPlain
            10000)).snoozeUntilUpdatedAtChangedFrom ∧
      out2.bringBackToReviewIfNotMergedUntilTimestamp = (mergeWithExisting .OPEN 5000 false
          (discardOldMention .OPEN 10000 (computeLastMentionedAt ["@me"]
            wExtraPlain.repository.pullRequest.comments)) 10000 wSnoozed
          (buildFreshCodeReview wIssueOpen "acme" "widgets" "alice" wExtraPlain
            10000)).bringBackToReviewIfNotMergedUntilTimestamp :=
  C2_amended wIssueOpen "acme" "widgets" "alice" ["@me"] wExtraPlain 10000 wSnoozed _
    rfl rfl rfl

end Workboard
